import Mathlib

/-!
Verification of the session lifecycle manager and task dispatch engine of
the Servus messaging server (`src/index.js`).  The source file contains two
servers: the Baileys-backed server (connection handling, send loop, stop,
status, groups) and a simulation server (persistent snapshot state, capped
log sink, cyclic send loop).  Each JavaScript function relevant to the
claims is embedded as a Lean definition below, and the claimed properties
are proved about those definitions.
-/

namespace Servus

/-! ## Registries

`activeClients` and `activeTasks` are JavaScript `Map`s.  A `Map` iterates
its entries in insertion order and `set` on an existing key keeps the key's
original position, so we model a registry as an association list where
`regSet` replaces in place and appends new keys at the end. -/

abbrev Registry (α : Type) : Type := List (String × α)

def regGet {α : Type} : Registry α → String → Option α
  | [], _ => none
  | (k, v) :: rest, key => if k = key then some v else regGet rest key

def regSet {α : Type} : Registry α → String → α → Registry α
  | [], key, v => [(key, v)]
  | (k, w) :: rest, key, v =>
      if k = key then (key, v) :: rest else (k, w) :: regSet rest key v

def regDelete {α : Type} (reg : Registry α) (key : String) : Registry α :=
  reg.filter (fun p => p.1 ≠ key)

theorem regGet_regSet_self {α : Type} (reg : Registry α) (key : String) (v : α) :
    regGet (regSet reg key v) key = some v := by
  induction reg with
  | nil => simp [regSet, regGet]
  | cons p rest ih =>
      obtain ⟨k, w⟩ := p
      by_cases hk : k = key
      · simp [regSet, hk, regGet]
      · simp [regSet, hk, regGet, ih]

theorem regGet_regSet_other {α : Type} (reg : Registry α) (key key' : String) (v : α)
    (h : key' ≠ key) : regGet (regSet reg key v) key' = regGet reg key' := by
  induction reg with
  | nil => simp [regSet, regGet, Ne.symm h]
  | cons p rest ih =>
      obtain ⟨k, w⟩ := p
      by_cases hk : k = key
      · subst hk
        simp [regSet, regGet, Ne.symm h]
      · simp only [regSet, if_neg hk, regGet]
        by_cases hk' : k = key'
        · simp [hk']
        · simp [hk', ih]

theorem regGet_regDelete_self {α : Type} (reg : Registry α) (key : String) :
    regGet (regDelete reg key) key = none := by
  induction reg with
  | nil => simp [regDelete, regGet]
  | cons p rest ih =>
      obtain ⟨k, w⟩ := p
      by_cases hk : k = key
      · simpa [regDelete, List.filter_cons, hk] using ih
      · simpa [regDelete, List.filter_cons, hk, regGet] using ih

theorem mem_regSet {α : Type} (reg : Registry α) (key : String) (v : α) (p : String × α)
    (h : p ∈ regSet reg key v) : p = (key, v) ∨ p ∈ reg := by
  induction reg with
  | nil => simpa [regSet] using h
  | cons q rest ih =>
      obtain ⟨k, w⟩ := q
      by_cases hk : k = key
      · simp only [regSet, if_pos hk] at h
        rcases List.mem_cons.mp h with h1 | h1
        · exact Or.inl h1
        · exact Or.inr (List.mem_cons_of_mem _ h1)
      · simp only [regSet, if_neg hk] at h
        rcases List.mem_cons.mp h with h1 | h1
        · exact Or.inr (h1 ▸ List.mem_cons_self _ _)
        · rcases ih h1 with h2 | h2
          · exact Or.inl h2
          · exact Or.inr (List.mem_cons_of_mem _ h2)

theorem regGet_mem {α : Type} (reg : Registry α) (key : String) (v : α)
    (h : regGet reg key = some v) : (key, v) ∈ reg := by
  induction reg with
  | nil => simp [regGet] at h
  | cons q rest ih =>
      obtain ⟨k, w⟩ := q
      by_cases hk : k = key
      · have hv : w = v := by simpa [regGet, hk] using h
        have : (key, v) = (k, w) := by simp [hk, hv]
        exact this ▸ List.mem_cons_self _ _
      · simp only [regGet, if_neg hk] at h
        exact List.mem_cons_of_mem _ (ih h)

/-! ## Session lifecycle manager

`activeClients` maps `sessionId` to
`{ client, number, authPath, connected, lastConnected, retryCount }`.
We model the Baileys socket handle as a `Bool` (whether the entry carries a
client handle) and timestamps as `Nat`.  `emptyClientInfo` is the `{}`
default used by the close handler's `activeClients.get(sessionId) || {}`:
every field is JavaScript-absent (falsy / 0). -/

structure ClientInfo where
  client : Bool
  number : Option String
  connected : Bool
  lastConnected : Option Nat
  retryCount : Nat
  deriving DecidableEq, Repr

def emptyClientInfo : ClientInfo :=
  { client := false, number := none, connected := false,
    lastConnected := none, retryCount := 0 }

def MAX_RETRIES : Nat := 1000

def RECONNECT_INTERVAL : Nat := 10000

/-- The reconnect policy of the `connection.update` close handler:
`statusCode !== DisconnectReason.loggedOut && statusCode !== 401`.
`DisconnectReason.loggedOut` is a constant of the external Baileys library,
so its numeric value `loggedOut` is kept as a parameter; `statusCode` is
`lastDisconnect?.error?.output?.statusCode` and may be absent. -/
def shouldReconnect (loggedOut : Nat) (statusCode : Option Nat) : Bool :=
  statusCode ≠ some loggedOut && statusCode ≠ some 401

/-- The events `initializeClient` reacts to, per session:
* `register sid num`: the first-time bookkeeping at the end of
  `initializeClient` when `isReconnect` is false;
* `opened sid num now`: `connection === "open"` in `connection.update`;
* `closed sid code`: `connection === "close"` with status code `code`;
* `initError sid`: the `catch` block of `initializeClient`. -/
inductive SessionEvent where
  | register (sid num : String)
  | opened (sid num : String) (now : Nat)
  | closed (sid : String) (code : Option Nat)
  | initError (sid : String)
  deriving DecidableEq, Repr

def SessionEvent.sid : SessionEvent → String
  | .register s _ => s
  | .opened s _ _ => s
  | .closed s _ => s
  | .initError s => s

/-- One step of the session lifecycle: consume an event and return the new
`activeClients` registry together with whether a reconnect attempt was
scheduled (a `setTimeout(() => initializeClient(...), RECONNECT_INTERVAL)`). -/
def connStep (loggedOut : Nat) (reg : Registry ClientInfo) :
    SessionEvent → Registry ClientInfo × Bool
  | .register sid num =>
      (regSet reg sid
        { client := true, number := some num, connected := false,
          lastConnected := none, retryCount := 0 }, false)
  | .opened sid num now =>
      (regSet reg sid
        { client := true, number := some num, connected := true,
          lastConnected := some now, retryCount := 0 }, false)
  | .closed sid code =>
      if shouldReconnect loggedOut code then
        let clientInfo := (regGet reg sid).getD emptyClientInfo
        if clientInfo.retryCount < MAX_RETRIES then
          (regSet reg sid
            { clientInfo with connected := false,
                              retryCount := clientInfo.retryCount + 1 }, true)
        else
          (reg, false)
      else
        (regDelete reg sid, false)
  | .initError sid =>
      match regGet reg sid with
      | some clientInfo =>
          if clientInfo.retryCount < MAX_RETRIES then (reg, true) else (reg, false)
      | none => (reg, false)

theorem connStep_register_eq (loggedOut : Nat) (reg : Registry ClientInfo)
    (sid num : String) :
    connStep loggedOut reg (SessionEvent.register sid num) =
      (regSet reg sid
        { client := true, number := some num, connected := false,
          lastConnected := none, retryCount := 0 }, false) := rfl

theorem connStep_opened_eq (loggedOut : Nat) (reg : Registry ClientInfo)
    (sid num : String) (now : Nat) :
    connStep loggedOut reg (SessionEvent.opened sid num now) =
      (regSet reg sid
        { client := true, number := some num, connected := true,
          lastConnected := some now, retryCount := 0 }, false) := rfl

theorem connStep_closed_eq (loggedOut : Nat) (reg : Registry ClientInfo)
    (sid : String) (code : Option Nat) :
    connStep loggedOut reg (SessionEvent.closed sid code) =
      if shouldReconnect loggedOut code = true then
        (if ((regGet reg sid).getD emptyClientInfo).retryCount < MAX_RETRIES then
          (regSet reg sid
            { (regGet reg sid).getD emptyClientInfo with
              connected := false,
              retryCount := ((regGet reg sid).getD emptyClientInfo).retryCount + 1 },
           true)
        else (reg, false))
      else (regDelete reg sid, false) := rfl

theorem connStep_initError_eq (loggedOut : Nat) (reg : Registry ClientInfo)
    (sid : String) :
    connStep loggedOut reg (SessionEvent.initError sid) =
      match regGet reg sid with
      | some clientInfo =>
          if clientInfo.retryCount < MAX_RETRIES then (reg, true) else (reg, false)
      | none => (reg, false) := rfl

/-- A whole run: fold a sequence of connection events over the registry. -/
def runEvents (loggedOut : Nat) (reg : Registry ClientInfo)
    (evs : List SessionEvent) : Registry ClientInfo :=
  evs.foldl (fun r e => (connStep loggedOut r e).1) reg

/-- `retryCount` of a session as the close handler reads it
(`clientInfo.retryCount || 0`, absent entry defaulting to `{}`). -/
def rcOf (reg : Registry ClientInfo) (sid : String) : Nat :=
  ((regGet reg sid).getD emptyClientInfo).retryCount

/-- All retry counters of a registry are bounded by `MAX_RETRIES`. -/
def RetryBound (reg : Registry ClientInfo) : Prop :=
  ∀ p ∈ reg, (p : String × ClientInfo).2.retryCount ≤ MAX_RETRIES

theorem retryBound_regSet {reg : Registry ClientInfo} {sid : String} {ci : ClientInfo}
    (hreg : RetryBound reg) (hci : ci.retryCount ≤ MAX_RETRIES) :
    RetryBound (regSet reg sid ci) := by
  intro p hp
  rcases mem_regSet reg sid ci p hp with h | h
  · rw [h]; exact hci
  · exact hreg p h

theorem retryBound_regDelete {reg : Registry ClientInfo} {sid : String}
    (hreg : RetryBound reg) : RetryBound (regDelete reg sid) := by
  intro p hp
  exact hreg p (List.mem_of_mem_filter hp)

theorem retryBound_connStep (loggedOut : Nat) (reg : Registry ClientInfo)
    (e : SessionEvent) (hreg : RetryBound reg) :
    RetryBound (connStep loggedOut reg e).1 := by
  cases e with
  | register sid num => exact retryBound_regSet hreg (Nat.zero_le _)
  | opened sid num now => exact retryBound_regSet hreg (Nat.zero_le _)
  | closed sid code =>
      by_cases hrc : shouldReconnect loggedOut code
      · simp only [connStep, hrc, if_true]
        by_cases hlt : ((regGet reg sid).getD emptyClientInfo).retryCount < MAX_RETRIES
        · simp only [hlt, if_true]
          exact retryBound_regSet hreg (Nat.succ_le_of_lt hlt)
        · simp only [hlt, if_false]
          exact hreg
      · simp only [connStep, hrc, if_false]
        exact retryBound_regDelete hreg
  | initError sid =>
      simp only [connStep]
      cases hg : regGet reg sid with
      | none => exact hreg
      | some ci =>
          by_cases hlt : ci.retryCount < MAX_RETRIES <;> simp [hlt, hreg]

theorem retryBound_runEvents (loggedOut : Nat) (reg : Registry ClientInfo)
    (evs : List SessionEvent) (hreg : RetryBound reg) :
    RetryBound (runEvents loggedOut reg evs) := by
  induction evs generalizing reg with
  | nil => exact hreg
  | cons e rest ih =>
      exact ih _ (retryBound_connStep loggedOut reg e hreg)

theorem regGet_regDelete_other {α : Type} (reg : Registry α) (key key' : String)
    (h : key' ≠ key) : regGet (regDelete reg key) key' = regGet reg key' := by
  induction reg with
  | nil => simp [regDelete, regGet]
  | cons p rest ih =>
      obtain ⟨k, w⟩ := p
      by_cases hk : k = key
      · subst hk
        simp only [regDelete, List.filter_cons, decide_not, decide_True,
          Bool.not_true, Bool.false_eq_true, if_false, regGet, if_neg (Ne.symm h)] at ih ⊢
        simpa [regDelete] using ih
      · by_cases hk' : k = key'
        · simp [regDelete, List.filter_cons, hk, regGet, hk', h]
        · simpa [regDelete, List.filter_cons, hk, regGet, hk'] using ih

/-! ## The `/status` handler (sessions part) -/

structure SessionStatus where
  sessionId : String
  number : Option String
  connected : Bool
  lastConnected : Option Nat
  retryCount : Nat
  deriving DecidableEq, Repr

/-- The sessions array built by `app.get("/status", ...)`: one entry per
`activeClients` entry, in iteration order. -/
def statusSessions (reg : Registry ClientInfo) : List SessionStatus :=
  reg.map (fun p =>
    { sessionId := p.1, number := p.2.number, connected := p.2.connected,
      lastConnected := p.2.lastConnected, retryCount := p.2.retryCount })

/-! ## The keep-alive ticker

The `setInterval` body iterates `activeClients` and, for entries with
`clientInfo.connected && clientInfo.client`, calls
`sendPresenceUpdate('available')` inside `try`, logging on failure.  The
body contains no assignment to any session field and no registry mutation,
so the tick returns the registry unchanged; `pingFails sid` says whether the
presence update throws for session `sid`.  The tick returns
(registry after, sessions pinged, sessions whose failure was logged). -/

def keepAlivePing (clientInfo : ClientInfo) : Bool :=
  clientInfo.connected && clientInfo.client

def keepAliveTick (reg : Registry ClientInfo) (pingFails : String → Bool) :
    Registry ClientInfo × List String × List String :=
  (reg,
   (reg.filter (fun p => keepAlivePing p.2)).map Prod.fst,
   ((reg.filter (fun p => keepAlivePing p.2)).filter (fun p => pingFails p.1)).map Prod.fst)

/-! ## Session selection in `/send-message` and `/groups`

`/send-message` takes the first `activeClients` entry (a `for ... break`
over `entries()`), then errors when `!sessionId || !clientInfo ||
!clientInfo.client` — it never reads `connected`.  `/groups` scans for the
first entry with `clientInfo.connected && clientInfo.client`. -/

def selectTaskSession : Registry ClientInfo → Option (String × ClientInfo)
  | [] => none
  | p :: _ => if p.1 = "" || !p.2.client then none else some p

def selectGroupsSession : Registry ClientInfo → Option ClientInfo
  | [] => none
  | p :: rest =>
      if p.2.connected && p.2.client then some p.2 else selectGroupsSession rest

/-! ## Task dispatch engine

`activeTasks` maps `taskId` to the `taskInfo` object created in
`/send-message`.  The source field `prefix` is a Lean keyword and is
renamed `pfx`.  `ended` records whether `endedAt` has been set; timestamps
are `Nat`. -/

structure TaskInfo where
  sessionId : String
  target : String
  targetJid : String
  pfx : String
  totalMessages : Nat
  sentMessages : Nat
  isSending : Bool
  stopRequested : Bool
  ended : Bool
  lastSentAt : Option Nat
  deriving DecidableEq, Repr

/-- The `taskInfo` object stored by `/send-message` at task creation. -/
def mkTaskInfo (sid target targetJid pfx : String) (msgs : List String) : TaskInfo :=
  { sessionId := sid, target := target, targetJid := targetJid, pfx := pfx,
    totalMessages := msgs.length, sentMessages := 0, isSending := true,
    stopRequested := false, ended := false, lastSentAt := none }

/-- The `/stop-task` handler: `none` models the "Task not found" error
response; otherwise it sets `stopRequested = true` and `isSending = false`
on the stored entity, immediately. -/
def stopTask (tasks : Registry TaskInfo) (taskId : String) :
    Option (Registry TaskInfo) :=
  match regGet tasks taskId with
  | none => none
  | some task =>
      some (regSet tasks taskId
        { task with stopRequested := true, isSending := false })

structure TaskStatus where
  taskId : String
  target : String
  targetJid : String
  totalMessages : Nat
  sentMessages : Nat
  isSending : Bool
  stopRequested : Bool
  lastSentAt : Option Nat
  deriving DecidableEq, Repr

/-- The tasks array built by `app.get("/status", ...)`. -/
def statusTasks (tasks : Registry TaskInfo) : List TaskStatus :=
  tasks.map (fun p =>
    { taskId := p.1, target := p.2.target, targetJid := p.2.targetJid,
      totalMessages := p.2.totalMessages, sentMessages := p.2.sentMessages,
      isSending := p.2.isSending, stopRequested := p.2.stopRequested,
      lastSentAt := p.2.lastSentAt })

/-! ## The background send loop of `/send-message`

One iteration of the `for (let i = 0; i < messages.length; i++)` loop:
checkpoint (re-read the task; break when absent or `stopRequested`),
compose `prefix ? prefix + " " + messages[i] : messages[i]`, invoke
`waClient.sendMessage`, on success bump `sentMessages` and `lastSentAt`,
then `await delay(...)`.  A concurrent `/stop-task` request can only be
served at a suspension point, i.e. between the send of message `i` and the
next checkpoint; `stopEvt i` says whether one arrives there.  `sendOk i`
says whether `sendMessage` succeeds for index `i` (a failure is logged and
the loop continues).  After the loop the task is marked finished
(`isSending = false`, `endedAt` set) and its registry entry is kept for a
grace period. -/

structure LoopEnv where
  taskId : String
  msgs : List String
  pfx : String
  sendOk : Nat → Bool
  stopEvt : Nat → Bool
  now : Nat → Nat

structure LoopState where
  tasks : Registry TaskInfo
  idx : Nat
  finished : Bool
  attempted : List (Nat × String)
  deriving Repr

/-- The code after the loop: mark the task not sending and ended. -/
def finishLoop (env : LoopEnv) (s : LoopState) : LoopState :=
  match regGet s.tasks env.taskId with
  | some finishedTask =>
      { s with finished := true,
               tasks := regSet s.tasks env.taskId
                 { finishedTask with isSending := false, ended := true } }
  | none => { s with finished := true }

/-- One iteration of the send loop (including the possible concurrent
`/stop-task` during its suspension), or the post-loop finalisation when the
loop condition or a checkpoint fails. -/
def loopStep (env : LoopEnv) (s : LoopState) : LoopState :=
  if s.finished then s
  else if env.msgs.length ≤ s.idx then finishLoop env s
  else
    match regGet s.tasks env.taskId with
    | none => finishLoop env s
    | some currentTask =>
        if currentTask.stopRequested then finishLoop env s
        else
          let textToSend :=
            if env.pfx ≠ "" then env.pfx ++ " " ++ (env.msgs.getD s.idx "")
            else env.msgs.getD s.idx ""
          let tasks1 :=
            if env.sendOk s.idx then
              match regGet s.tasks env.taskId with
              | some t =>
                  regSet s.tasks env.taskId
                    { t with sentMessages := t.sentMessages + 1,
                             lastSentAt := some (env.now s.idx) }
              | none => s.tasks
            else s.tasks
          let tasks2 :=
            if env.stopEvt s.idx then (stopTask tasks1 env.taskId).getD tasks1
            else tasks1
          { tasks := tasks2, idx := s.idx + 1, finished := false,
            attempted := s.attempted ++ [(s.idx, textToSend)] }

/-- The state of the registry and loop right after `/send-message` has
registered the task and fired the background loop. -/
def initLoopState (env : LoopEnv) (tasks : Registry TaskInfo)
    (sid target targetJid : String) : LoopState :=
  { tasks := regSet tasks env.taskId (mkTaskInfo sid target targetJid env.pfx env.msgs),
    idx := 0, finished := false, attempted := [] }

def runLoop (env : LoopEnv) (s : LoopState) (n : Nat) : LoopState :=
  (loopStep env)^[n] s

/-- `sentMessages` of the task as stored in the registry. -/
def taskSent (env : LoopEnv) (s : LoopState) : Nat :=
  ((regGet s.tasks env.taskId).map TaskInfo.sentMessages).getD 0

theorem loopStep_of_finished (env : LoopEnv) (s : LoopState) (h : s.finished = true) :
    loopStep env s = s := by
  simp [loopStep, h]

theorem runLoop_of_finished (env : LoopEnv) (s : LoopState) (h : s.finished = true)
    (n : Nat) : runLoop env s n = s := by
  induction n with
  | zero => rfl
  | succ n ih =>
      unfold runLoop at ih ⊢
      rw [Function.iterate_succ_apply', ih, loopStep_of_finished env s h]

theorem finishLoop_regGet (env : LoopEnv) (s : LoopState) :
    regGet (finishLoop env s).tasks env.taskId =
      (regGet s.tasks env.taskId).map
        (fun t => { t with isSending := false, ended := true }) := by
  cases h : regGet s.tasks env.taskId with
  | none => simp [finishLoop, h]
  | some t => simp [finishLoop, h, regGet_regSet_self]

theorem finishLoop_idx (env : LoopEnv) (s : LoopState) :
    (finishLoop env s).idx = s.idx := by
  cases h : regGet s.tasks env.taskId with
  | none => simp [finishLoop, h]
  | some t => simp [finishLoop, h]

theorem finishLoop_finished (env : LoopEnv) (s : LoopState) :
    (finishLoop env s).finished = true := by
  cases h : regGet s.tasks env.taskId with
  | none => simp [finishLoop, h]
  | some t => simp [finishLoop, h]

theorem finishLoop_attempted (env : LoopEnv) (s : LoopState) :
    (finishLoop env s).attempted = s.attempted := by
  cases h : regGet s.tasks env.taskId with
  | none => simp [finishLoop, h]
  | some t => simp [finishLoop, h]

theorem stopTask_getD_regGet (tasks : Registry TaskInfo) (tid : String) :
    regGet ((stopTask tasks tid).getD tasks) tid =
      (regGet tasks tid).map
        (fun t => { t with stopRequested := true, isSending := false }) := by
  cases h : regGet tasks tid with
  | none => simp [stopTask, h]
  | some t => simp [stopTask, h, regGet_regSet_self]

/-- The registry invariant maintained by the send loop: the task is present,
its `totalMessages` is the length of the fixed message list, and
`sentMessages` never exceeds the loop index, which never exceeds the number
of messages. -/
def LoopInv (env : LoopEnv) (s : LoopState) : Prop :=
  ∃ t, regGet s.tasks env.taskId = some t ∧
    t.totalMessages = env.msgs.length ∧
    t.sentMessages ≤ s.idx ∧ s.idx ≤ env.msgs.length

theorem loopInv_init (env : LoopEnv) (tasks : Registry TaskInfo)
    (sid target targetJid : String) :
    LoopInv env (initLoopState env tasks sid target targetJid) := by
  refine ⟨mkTaskInfo sid target targetJid env.pfx env.msgs, ?_, rfl, ?_, ?_⟩
  · exact regGet_regSet_self tasks env.taskId _
  · exact Nat.le_refl 0
  · exact Nat.zero_le _

/-- The text composed for message index `i`:
`prefix ? prefix + " " + messages[i] : messages[i]`. -/
def composeText (env : LoopEnv) (i : Nat) : String :=
  if env.pfx ≠ "" then env.pfx ++ " " ++ env.msgs.getD i ""
  else env.msgs.getD i ""

/-- How one iteration's `sendMessage` outcome updates the stored task. -/
def sendUpd (env : LoopEnv) (i : Nat) (t : TaskInfo) : TaskInfo :=
  if env.sendOk i then
    { t with sentMessages := t.sentMessages + 1, lastSentAt := some (env.now i) }
  else t

/-- How a `/stop-task` arriving during iteration `i` updates the stored task. -/
def stopUpd (env : LoopEnv) (i : Nat) (t : TaskInfo) : TaskInfo :=
  if env.stopEvt i then { t with stopRequested := true, isSending := false }
  else t

/-- Characterisation of a full send iteration: when the loop is not
finished, the loop condition holds, and the checkpoint passes, the step
attempts the send of index `idx` and applies the send / concurrent-stop
updates to the stored task. -/
theorem loopStep_attempt (env : LoopEnv) (s : LoopState) (t : TaskInfo)
    (hfin : s.finished = false) (hlen : s.idx < env.msgs.length)
    (hget : regGet s.tasks env.taskId = some t)
    (hstopd : t.stopRequested = false) :
    regGet (loopStep env s).tasks env.taskId = some (stopUpd env s.idx (sendUpd env s.idx t)) ∧
    (loopStep env s).idx = s.idx + 1 ∧
    (loopStep env s).finished = false ∧
    (loopStep env s).attempted = s.attempted ++ [(s.idx, composeText env s.idx)] := by
  have hnle : ¬ env.msgs.length ≤ s.idx := Nat.not_le.mpr hlen
  have hfin2 : ¬ s.finished = true := by simp [hfin]
  have hstopd2 : ¬ t.stopRequested = true := by simp [hstopd]
  unfold loopStep
  rw [if_neg hfin2, if_neg hnle, hget]
  dsimp only
  rw [if_neg hstopd2]
  refine ⟨?_, rfl, rfl, rfl⟩
  by_cases hok : env.sendOk s.idx = true
  · by_cases hse : env.stopEvt s.idx = true
    · simp only [hok, if_true, hget, hse]
      rw [stopTask_getD_regGet, regGet_regSet_self]
      simp [stopUpd, sendUpd, hok, hse]
    · simp only [hok, if_true, hget, hse, Bool.false_eq_true, if_false]
      rw [regGet_regSet_self]
      simp [stopUpd, sendUpd, hok, hse]
  · by_cases hse : env.stopEvt s.idx = true
    · simp only [hok, Bool.false_eq_true, if_false, hse, if_true]
      rw [stopTask_getD_regGet, hget]
      simp [stopUpd, sendUpd, hok, hse]
    · simp only [hok, Bool.false_eq_true, if_false, hse]
      rw [hget]
      simp [stopUpd, sendUpd, hok, hse]

/-- Characterisation of a breaking step: when the loop condition fails or
the checkpoint observes a missing task or the stop flag, the step performs
the post-loop finalisation. -/
theorem loopStep_break (env : LoopEnv) (s : LoopState) (hfin : s.finished = false)
    (hbreak : env.msgs.length ≤ s.idx ∨ regGet s.tasks env.taskId = none ∨
      ∃ t, regGet s.tasks env.taskId = some t ∧ t.stopRequested = true) :
    loopStep env s = finishLoop env s := by
  unfold loopStep
  simp only [hfin, Bool.false_eq_true, if_false]
  by_cases hlen : env.msgs.length ≤ s.idx
  · simp [hlen]
  · simp only [hlen, if_false]
    rcases hbreak with h | h | ⟨t, hget, hstop⟩
    · exact absurd h hlen
    · simp [h]
    · simp [hget, hstop]

theorem loopInv_step (env : LoopEnv) (s : LoopState) (h : LoopInv env s) :
    LoopInv env (loopStep env s) := by
  obtain ⟨t, hget, htot, hsent, hidx⟩ := h
  cases hfin : s.finished with
  | true => rw [loopStep_of_finished env s hfin]; exact ⟨t, hget, htot, hsent, hidx⟩
  | false =>
      by_cases hlen : env.msgs.length ≤ s.idx
      · rw [loopStep_break env s hfin (Or.inl hlen)]
        refine ⟨{ t with isSending := false, ended := true },
          by rw [finishLoop_regGet, hget]; rfl, htot, ?_, ?_⟩
        · rw [finishLoop_idx]; exact hsent
        · rw [finishLoop_idx]; exact hidx
      · have hlt : s.idx < env.msgs.length := Nat.lt_of_not_le hlen
        cases hstopd : t.stopRequested with
        | true =>
            rw [loopStep_break env s hfin (Or.inr (Or.inr ⟨t, hget, hstopd⟩))]
            refine ⟨{ t with isSending := false, ended := true },
              by rw [finishLoop_regGet, hget]; rfl, htot, ?_, ?_⟩
            · rw [finishLoop_idx]; exact hsent
            · rw [finishLoop_idx]; exact hidx
        | false =>
            obtain ⟨hreg, hidx', _, _⟩ := loopStep_attempt env s t hfin hlt hget hstopd
            refine ⟨_, hreg, ?_, ?_, ?_⟩
            · simp [stopUpd, sendUpd, htot]
              by_cases hok : env.sendOk s.idx = true <;>
                by_cases hse : env.stopEvt s.idx = true <;> simp [hok, hse, htot]
            · rw [hidx']
              by_cases hok : env.sendOk s.idx = true <;>
                by_cases hse : env.stopEvt s.idx = true <;>
                  simp [stopUpd, sendUpd, hok, hse] <;> omega
            · rw [hidx']; exact hlt

theorem loopInv_run (env : LoopEnv) (s : LoopState) (h : LoopInv env s) (n : Nat) :
    LoopInv env (runLoop env s n) := by
  induction n with
  | zero => exact h
  | succ n ih =>
      unfold runLoop at ih ⊢
      rw [Function.iterate_succ_apply']
      exact loopInv_step env _ ih

theorem taskSent_loopStep (env : LoopEnv) (s : LoopState) :
    taskSent env s ≤ taskSent env (loopStep env s) := by
  cases hfin : s.finished with
  | true => rw [loopStep_of_finished env s hfin]
  | false =>
      by_cases hlen : env.msgs.length ≤ s.idx
      · rw [loopStep_break env s hfin (Or.inl hlen)]
        unfold taskSent
        rw [finishLoop_regGet]
        cases regGet s.tasks env.taskId <;> simp
      · have hlt : s.idx < env.msgs.length := Nat.lt_of_not_le hlen
        cases hget : regGet s.tasks env.taskId with
        | none =>
            rw [loopStep_break env s hfin (Or.inr (Or.inl hget))]
            unfold taskSent
            rw [finishLoop_regGet, hget]
            simp
        | some t =>
            cases hstopd : t.stopRequested with
            | true =>
                rw [loopStep_break env s hfin (Or.inr (Or.inr ⟨t, hget, hstopd⟩))]
                unfold taskSent
                rw [finishLoop_regGet, hget]
                simp
            | false =>
                obtain ⟨hreg, _, _, _⟩ := loopStep_attempt env s t hfin hlt hget hstopd
                unfold taskSent
                rw [hreg, hget]
                by_cases hok : env.sendOk s.idx = true <;>
                  by_cases hse : env.stopEvt s.idx = true <;>
                    simp [stopUpd, sendUpd, hok, hse, Nat.le_succ]

/-- The invariant behind cooperative cancellation: once a stop request has
arrived during iteration `j`, the loop index never passes `j + 1`, every
attempted send has index at most `j`, and whenever the loop stands at index
`j + 1` unfinished, the stored task already carries `stopRequested`. -/
def StopInv (env : LoopEnv) (j : Nat) (s : LoopState) : Prop :=
  (∀ p ∈ s.attempted, (p : Nat × String).1 < s.idx ∧ p.1 ≤ j) ∧
  s.idx ≤ j + 1 ∧
  (s.idx = j + 1 → s.finished = false →
    ∀ t, regGet s.tasks env.taskId = some t → t.stopRequested = true)

theorem stopInv_step (env : LoopEnv) (j : Nat) (hstop : env.stopEvt j = true)
    (s : LoopState) (h : StopInv env j s) : StopInv env j (loopStep env s) := by
  obtain ⟨hatt, hle, hflag⟩ := h
  cases hfin : s.finished with
  | true => rw [loopStep_of_finished env s hfin]; exact ⟨hatt, hle, hflag⟩
  | false =>
      by_cases hbreak : env.msgs.length ≤ s.idx ∨ regGet s.tasks env.taskId = none ∨
          ∃ t, regGet s.tasks env.taskId = some t ∧ t.stopRequested = true
      · rw [loopStep_break env s hfin hbreak]
        refine ⟨?_, ?_, ?_⟩
        · rw [finishLoop_attempted, finishLoop_idx]; exact hatt
        · rw [finishLoop_idx]; exact hle
        · intro _ hcontr
          rw [finishLoop_finished] at hcontr
          exact absurd hcontr (by simp)
      · push_neg at hbreak
        obtain ⟨hlt, hpres, hnostop⟩ := hbreak
        obtain ⟨t, hget⟩ := Option.ne_none_iff_exists'.mp hpres
        have hstopd : t.stopRequested = false := by
          rcases Bool.eq_false_or_eq_true t.stopRequested with h1 | h1
          · exact absurd h1 (hnostop t hget)
          · exact h1
        obtain ⟨hreg, hidx, hfin', hatt'⟩ := loopStep_attempt env s t hfin hlt hget hstopd
        have hne : s.idx ≠ j + 1 := by
          intro hcontr
          exact absurd (hflag hcontr hfin t hget) (by simp [hstopd])
        have hltj : s.idx ≤ j := by omega
        refine ⟨?_, ?_, ?_⟩
        · intro p hp
          rw [hatt'] at hp
          rw [hidx]
          rcases List.mem_append.mp hp with hp1 | hp1
          · obtain ⟨h1, h2⟩ := hatt p hp1
            exact ⟨Nat.lt_succ_of_lt h1, h2⟩
          · rw [List.mem_singleton.mp hp1]
            exact ⟨Nat.lt_succ_self _, hltj⟩
        · rw [hidx]; omega
        · intro heq _
          rw [hidx] at heq
          have hij : s.idx = j := by omega
          intro t2 hget2
          rw [hreg] at hget2
          have : stopUpd env s.idx (sendUpd env s.idx t) = t2 := by
            exact Option.some.injEq _ _ ▸ hget2
          rw [← this]
          simp [stopUpd, hij, hstop]

theorem stopInv_run (env : LoopEnv) (j : Nat) (hstop : env.stopEvt j = true)
    (s : LoopState) (h : StopInv env j s) (n : Nat) :
    StopInv env j (runLoop env s n) := by
  induction n with
  | zero => exact h
  | succ n ih =>
      unfold runLoop at ih ⊢
      rw [Function.iterate_succ_apply']
      exact stopInv_step env j hstop _ ih

theorem stopInv_init (env : LoopEnv) (j : Nat) (tasks : Registry TaskInfo)
    (sid target targetJid : String) :
    StopInv env j (initLoopState env tasks sid target targetJid) := by
  refine ⟨?_, ?_, ?_⟩
  · intro p hp
    exact absurd hp (List.not_mem_nil p)
  · exact Nat.zero_le _
  · intro hcontr
    exact absurd hcontr.symm (Nat.succ_ne_zero j)

/-- When no stop request arrives during the first `m` iterations, the loop
performs exactly the sends of indices `0, …, m-1`, in order, and the task
entity still has its stop flag clear. -/
theorem runLoop_noStop (env : LoopEnv) (tasks : Registry TaskInfo)
    (sid target targetJid : String) (m : Nat) (hm : m ≤ env.msgs.length)
    (hns : ∀ i, i < m → env.stopEvt i = false) :
    (runLoop env (initLoopState env tasks sid target targetJid) m).idx = m ∧
    (runLoop env (initLoopState env tasks sid target targetJid) m).finished = false ∧
    (runLoop env (initLoopState env tasks sid target targetJid) m).attempted.map Prod.fst
      = List.range m ∧
    ∃ t, regGet (runLoop env (initLoopState env tasks sid target targetJid) m).tasks
        env.taskId = some t ∧ t.stopRequested = false := by
  induction m with
  | zero =>
      refine ⟨rfl, rfl, rfl, ?_⟩
      exact ⟨mkTaskInfo sid target targetJid env.pfx env.msgs,
        regGet_regSet_self tasks env.taskId _, rfl⟩
  | succ m ih =>
      obtain ⟨hidx, hfin, hatt, t, hget, hstopd⟩ :=
        ih (Nat.le_of_succ_le hm) (fun i hi => hns i (Nat.lt_succ_of_lt hi))
      have hlt : (runLoop env (initLoopState env tasks sid target targetJid) m).idx
          < env.msgs.length := by rw [hidx]; exact hm
      obtain ⟨hreg, hidx', hfin', hatt'⟩ :=
        loopStep_attempt env _ t hfin hlt hget hstopd
      have hrun : runLoop env (initLoopState env tasks sid target targetJid) (m + 1) =
          loopStep env (runLoop env (initLoopState env tasks sid target targetJid) m) := by
        unfold runLoop
        rw [Function.iterate_succ_apply']
      refine ⟨?_, ?_, ?_, ?_⟩
      · rw [hrun, hidx', hidx]
      · rw [hrun, hfin']
      · rw [hrun, hatt', List.map_append, hatt, hidx, List.range_succ]
        rfl
      · refine ⟨stopUpd env _ (sendUpd env _ t), by rw [hrun, hreg], ?_⟩
        have hse : env.stopEvt
            (runLoop env (initLoopState env tasks sid target targetJid) m).idx = false := by
          rw [hidx]
          exact hns m (Nat.lt_succ_self m)
        by_cases hok : env.sendOk
            (runLoop env (initLoopState env tasks sid target targetJid) m).idx = true <;>
          simp [stopUpd, sendUpd, hse, hstopd, hok]

/-- The loop always reaches its finished state: after enough steps (one
more than the messages left) the finalisation has run. -/
theorem runLoop_terminates (env : LoopEnv) (n : Nat) (s : LoopState)
    (hn : env.msgs.length ≤ s.idx + n) : (runLoop env s (n + 1)).finished = true := by
  induction n generalizing s with
  | zero =>
      cases hfin : s.finished with
      | true =>
          rw [runLoop_of_finished env s hfin]
          exact hfin
      | false =>
          show (loopStep env s).finished = true
          rw [loopStep_break env s hfin (Or.inl (by omega)), finishLoop_finished]
  | succ n ih =>
      cases hfin : s.finished with
      | true =>
          rw [runLoop_of_finished env s hfin]
          exact hfin
      | false =>
          have hstep : runLoop env s (n + 1 + 1) = runLoop env (loopStep env s) (n + 1) := by
            unfold runLoop
            rw [Function.iterate_succ_apply]
          rw [hstep]
          by_cases hlen : env.msgs.length ≤ s.idx
          · rw [loopStep_break env s hfin (Or.inl hlen)]
            rw [runLoop_of_finished env _ (finishLoop_finished env s)]
            exact finishLoop_finished env s
          · have hlt : s.idx < env.msgs.length := Nat.lt_of_not_le hlen
            cases hget : regGet s.tasks env.taskId with
            | none =>
                rw [loopStep_break env s hfin (Or.inr (Or.inl hget))]
                rw [runLoop_of_finished env _ (finishLoop_finished env s)]
                exact finishLoop_finished env s
            | some t =>
                cases hstopd : t.stopRequested with
                | true =>
                    rw [loopStep_break env s hfin (Or.inr (Or.inr ⟨t, hget, hstopd⟩))]
                    rw [runLoop_of_finished env _ (finishLoop_finished env s)]
                    exact finishLoop_finished env s
                | false =>
                    obtain ⟨_, hidx, _, _⟩ := loopStep_attempt env s t hfin hlt hget hstopd
                    exact ih (loopStep env s) (by omega)

/-! ## Pairing (`/code` handler)

The handler probes the duck-typed Baileys socket:
`typeof waClient.requestPairingCode === "function"` — modelled as an
optional function.  When absent, the fixed sentinel string is returned. -/

structure WaClient where
  requestPairingCode : Option (String → String)
  registered : Bool

/-- The `code` value computed by the `/code` handler for an unregistered
session: delegate when the capability exists, else the fixed sentinel. -/
def pairingCodeOf (waClient : WaClient) (num : String) : String :=
  match waClient.requestPairingCode with
  | some f => f num
  | none => "SCAN_QR_FROM_SERVER_LOGS"

/-! ## Simulation server (`server.js` half of the source)

Its persistent snapshot is the `simulation` object, saved with
`JSON.stringify` and reloaded with `JSON.parse`.  The source field `prefix`
is renamed `pfx` (Lean keyword); the JSON document keeps the source key
names. -/

structure SimState where
  running : Bool
  targetType : String
  targetValue : String
  delay : Nat
  pfx : String
  sessionId : String
  uptime : Nat
  filePath : Option String
  totalLines : Nat
  currentIndex : Nat
  linesPreview : List String
  lastSentAt : Option String
  number : Option String
  deriving DecidableEq, Repr

/-- JSON values, as produced by `JSON.stringify` / consumed by
`JSON.parse` (the numbers used by the snapshot are naturals). -/
inductive JValue where
  | jnull
  | jbool (b : Bool)
  | jnum (n : Nat)
  | jstr (s : String)
  | jarr (xs : List JValue)
  | jobj (fields : List (String × JValue))

def encodeOptStr : Option String → JValue
  | none => .jnull
  | some s => .jstr s

/-- Field access on a parsed JSON object (`obj.field`); an absent field is
`undefined`, modelled as `jnull`. -/
def jGetField : List (String × JValue) → String → JValue
  | [], _ => .jnull
  | (k, v) :: rest, key => if k = key then v else jGetField rest key

def jBoolD : JValue → Bool
  | .jbool b => b
  | _ => false

def jNumD : JValue → Nat
  | .jnum n => n
  | _ => 0

def jStrD : JValue → String
  | .jstr s => s
  | _ => ""

def jOptStr : JValue → Option String
  | .jstr s => some s
  | _ => none

def jStrElems : List JValue → List String
  | [] => []
  | .jstr s :: rest => s :: jStrElems rest
  | _ :: rest => "" :: jStrElems rest

def jStrList : JValue → List String
  | .jarr xs => jStrElems xs
  | _ => []

/-- `saveJson(SESSIONS_FILE, simulation)`: the JSON document written for the
snapshot, fields in the object's insertion order. -/
def encodeSim (sim : SimState) : JValue :=
  .jobj [("running", .jbool sim.running),
         ("targetType", .jstr sim.targetType),
         ("targetValue", .jstr sim.targetValue),
         ("delay", .jnum sim.delay),
         ("prefix", .jstr sim.pfx),
         ("sessionId", .jstr sim.sessionId),
         ("uptime", .jnum sim.uptime),
         ("filePath", encodeOptStr sim.filePath),
         ("totalLines", .jnum sim.totalLines),
         ("currentIndex", .jnum sim.currentIndex),
         ("linesPreview", .jarr (sim.linesPreview.map .jstr)),
         ("lastSentAt", encodeOptStr sim.lastSentAt),
         ("number", encodeOptStr sim.number)]

/-- `loadJson(SESSIONS_FILE, ...)` followed by the program's field accesses:
`JSON.parse` never validates shape, the parsed object's fields are simply
read (an absent or mistyped field yielding the JS default the program would
observe). -/
def loadSim : JValue → SimState
  | .jobj fields =>
      { running := jBoolD (jGetField fields "running"),
        targetType := jStrD (jGetField fields "targetType"),
        targetValue := jStrD (jGetField fields "targetValue"),
        delay := jNumD (jGetField fields "delay"),
        pfx := jStrD (jGetField fields "prefix"),
        sessionId := jStrD (jGetField fields "sessionId"),
        uptime := jNumD (jGetField fields "uptime"),
        filePath := jOptStr (jGetField fields "filePath"),
        totalLines := jNumD (jGetField fields "totalLines"),
        currentIndex := jNumD (jGetField fields "currentIndex"),
        linesPreview := jStrList (jGetField fields "linesPreview"),
        lastSentAt := jOptStr (jGetField fields "lastSentAt"),
        number := jOptStr (jGetField fields "number") }
  | _ =>
      { running := false, targetType := "", targetValue := "", delay := 0,
        pfx := "", sessionId := "", uptime := 0, filePath := none,
        totalLines := 0, currentIndex := 0, linesPreview := [],
        lastSentAt := none, number := none }

/-- One tick of the simulation's `setInterval` loop in `startLoop`:
skip when not running or the file has no lines, otherwise wrap the index if
it ran past the end, emit the composed message at the current index, then
advance (and wrap) the index.  Returns the new state and the simulated send
(index and text), `lines` being the re-read file contents and `now` the
ISO timestamp. -/
def simTick (sim : SimState) (lines : List String) (now : String) :
    SimState × Option (Nat × String) :=
  if sim.running = false then (sim, none)
  else if lines.length = 0 then (sim, none)
  else
    let i := if lines.length ≤ sim.currentIndex then 0 else sim.currentIndex
    let plain := lines.getD i ""
    let textToSend := (if sim.pfx ≠ "" then sim.pfx ++ " " else "") ++ plain
    let i2 := if lines.length ≤ i + 1 then 0 else i + 1
    ({ sim with lastSentAt := some now, currentIndex := i2,
                totalLines := lines.length },
     some (i, textToSend))

/-- The startup condition at the end of `app.listen`:
`if (simulation.running && simulation.filePath) startLoop()`. -/
def bootStartsLoop (sim : SimState) : Bool :=
  sim.running && sim.filePath.isSome

/-- `appendLog`: push the stamped entry, then cap the array to its last
2000 entries (`logs.slice(logs.length - 2000)`). -/
def appendLog {α : Type} (logs : List α) (entry : α) : List α :=
  let l := logs ++ [entry]
  if 2000 < l.length then l.drop (l.length - 2000) else l

theorem jOptStr_encodeOptStr (o : Option String) :
    jOptStr (encodeOptStr o) = o := by
  cases o <;> rfl

theorem jStrElems_map (l : List String) :
    jStrElems (l.map JValue.jstr) = l := by
  induction l with
  | nil => rfl
  | cons s rest ih => simp [jStrElems, ih]

theorem loadSim_encodeSim (sim : SimState) :
    loadSim (encodeSim sim) = sim := by
  simp [loadSim, encodeSim, jGetField, jBoolD, jNumD, jStrD, jStrList,
    jOptStr_encodeOptStr, jStrElems_map]

/-- The suffix of at most 2000 entries that the log cap retains. -/
def logCap {α : Type} (l : List α) : List α := l.drop (l.length - 2000)

theorem appendLog_eq_logCap {α : Type} (l : List α) (e : α) :
    appendLog l e = logCap (l ++ [e]) := by
  show (if 2000 < (l ++ [e]).length then
      (l ++ [e]).drop ((l ++ [e]).length - 2000) else l ++ [e]) = _
  unfold logCap
  by_cases h : 2000 < (l ++ [e]).length
  · rw [if_pos h]
  · rw [if_neg h, Nat.sub_eq_zero_of_le (Nat.le_of_not_lt h), List.drop_zero]

theorem appendLog_logCap {α : Type} (l : List α) (e : α) :
    appendLog (logCap l) e = logCap (l ++ [e]) := by
  by_cases h : l.length ≤ 2000
  · have hcap : logCap l = l := by
      unfold logCap
      rw [Nat.sub_eq_zero_of_le h, List.drop_zero]
    rw [hcap, appendLog_eq_logCap]
  · have h2 : 2000 < l.length := Nat.lt_of_not_le h
    rw [appendLog_eq_logCap]
    unfold logCap
    have hd : l.drop (l.length - 2000) ++ [e] = (l ++ [e]).drop (l.length - 2000) := by
      rw [List.drop_append_of_le_length (by omega)]
    rw [hd, List.length_drop, List.drop_drop]
    have harith : l.length - 2000 + ((l ++ [e]).length - (l.length - 2000) - 2000)
        = (l ++ [e]).length - 2000 := by
      simp [List.length_append]
      omega
    rw [harith]

theorem foldl_appendLog {α : Type} (es : List α) (l : List α) :
    es.foldl appendLog (logCap l) = logCap (l ++ es) := by
  induction es generalizing l with
  | nil => simp
  | cons e rest ih =>
      rw [List.foldl_cons, appendLog_logCap, ih, List.append_assoc,
        List.singleton_append]

/-! ## Claim theorems -/

/-- A session entry with a handle and five completed retries, used to
exhibit the init-error retry path. -/
def regRetryEx : Registry ClientInfo :=
  [("s", { client := true, number := some "15550001111", connected := false,
           lastConnected := none, retryCount := 5 })]

/-- C1 counterexample: the claim says every scheduled reconnect increments
`retryCount` by exactly 1, but the init-error retry path
(`catch` block of `initializeClient`) schedules a reconnect while leaving
the registry — and hence `retryCount` — completely unchanged: from a
session with `retryCount = 5` an `initError` event schedules a reconnect
and `retryCount` stays 5. -/
theorem C1_counterexample :
    (connStep 408 regRetryEx (SessionEvent.initError "s")).2 = true ∧
    (connStep 408 regRetryEx (SessionEvent.initError "s")).1 = regRetryEx ∧
    rcOf regRetryEx "s" = 5 := by
  refine ⟨by decide, by decide, by decide⟩

/-- C1 (amended): `retryCount` never exceeds `MAX_RETRIES` over any event
sequence; a reconnect is scheduled only when the target session's
`retryCount` is below `MAX_RETRIES`; a reconnect scheduled from the close
handler increments `retryCount` by exactly 1 and keeps the entry, while a
reconnect scheduled from the init-error path leaves the registry unchanged;
at `MAX_RETRIES` a reconnectable close neither schedules nor deletes; and
the only event that removes a session entry is a close with a
non-reconnectable reason code. -/
theorem C1_retry_bound :
    (∀ loggedOut evs sid ci,
        regGet (runEvents loggedOut [] evs) sid = some ci →
        ci.retryCount ≤ MAX_RETRIES) ∧
    (∀ loggedOut reg e, (connStep loggedOut reg e).2 = true →
        rcOf reg e.sid < MAX_RETRIES) ∧
    (∀ loggedOut reg sid code, shouldReconnect loggedOut code = true →
        rcOf reg sid < MAX_RETRIES →
        rcOf (connStep loggedOut reg (SessionEvent.closed sid code)).1 sid
            = rcOf reg sid + 1 ∧
        (connStep loggedOut reg (SessionEvent.closed sid code)).2 = true) ∧
    (∀ loggedOut reg sid,
        (connStep loggedOut reg (SessionEvent.initError sid)).1 = reg) ∧
    (∀ loggedOut reg sid code, shouldReconnect loggedOut code = true →
        MAX_RETRIES ≤ rcOf reg sid →
        connStep loggedOut reg (SessionEvent.closed sid code) = (reg, false)) ∧
    (∀ loggedOut reg e sid ci, regGet reg sid = some ci →
        regGet (connStep loggedOut reg e).1 sid = none →
        ∃ code, e = SessionEvent.closed sid code ∧
          shouldReconnect loggedOut code = false) := by
  refine ⟨?_, ?_, ?_, ?_, ?_, ?_⟩
  · intro loggedOut evs sid ci h
    have hbound := retryBound_runEvents loggedOut [] evs
      (fun p hp => absurd hp (List.not_mem_nil p))
    exact hbound (sid, ci) (regGet_mem _ sid ci h)
  · intro loggedOut reg e h2
    cases e with
    | register sid num => rw [connStep_register_eq] at h2; exact absurd h2 (by simp)
    | opened sid num now => rw [connStep_opened_eq] at h2; exact absurd h2 (by simp)
    | closed sid code =>
        rw [connStep_closed_eq] at h2
        by_cases hrc : shouldReconnect loggedOut code = true
        · rw [if_pos hrc] at h2
          by_cases hlt : ((regGet reg sid).getD emptyClientInfo).retryCount < MAX_RETRIES
          · exact hlt
          · rw [if_neg hlt] at h2
            exact absurd h2 (by simp)
        · rw [if_neg hrc] at h2
          exact absurd h2 (by simp)
    | initError sid =>
        rw [connStep_initError_eq] at h2
        cases hg : regGet reg sid with
        | none => rw [hg] at h2; exact absurd h2 (by simp)
        | some ci =>
            rw [hg] at h2
            by_cases hlt : ci.retryCount < MAX_RETRIES
            · show ((regGet reg sid).getD emptyClientInfo).retryCount < MAX_RETRIES
              rw [hg]
              exact hlt
            · simp [hlt] at h2
  · intro loggedOut reg sid code hrc hlt
    unfold rcOf at hlt ⊢
    rw [connStep_closed_eq, if_pos hrc, if_pos hlt]
    constructor
    · rw [regGet_regSet_self]
      rfl
    · rfl
  · intro loggedOut reg sid
    rw [connStep_initError_eq]
    cases hg : regGet reg sid with
    | none => rfl
    | some ci => by_cases hlt : ci.retryCount < MAX_RETRIES <;> simp [hlt]
  · intro loggedOut reg sid code hrc hge
    unfold rcOf at hge
    rw [connStep_closed_eq, if_pos hrc, if_neg (Nat.not_lt.mpr hge)]
  · intro loggedOut reg e sid ci hget hnone
    cases e with
    | register sid2 num =>
        rw [connStep_register_eq] at hnone
        by_cases hs : sid = sid2
        · subst hs
          rw [regGet_regSet_self] at hnone
          exact absurd hnone (by simp)
        · rw [regGet_regSet_other reg sid2 sid _ hs, hget] at hnone
          exact absurd hnone (by simp)
    | opened sid2 num now =>
        rw [connStep_opened_eq] at hnone
        by_cases hs : sid = sid2
        · subst hs
          rw [regGet_regSet_self] at hnone
          exact absurd hnone (by simp)
        · rw [regGet_regSet_other reg sid2 sid _ hs, hget] at hnone
          exact absurd hnone (by simp)
    | closed sid2 code =>
        rw [connStep_closed_eq] at hnone
        by_cases hrc : shouldReconnect loggedOut code = true
        · rw [if_pos hrc] at hnone
          by_cases hlt : ((regGet reg sid2).getD emptyClientInfo).retryCount < MAX_RETRIES
          · rw [if_pos hlt] at hnone
            by_cases hs : sid = sid2
            · subst hs
              rw [regGet_regSet_self] at hnone
              exact absurd hnone (by simp)
            · rw [regGet_regSet_other reg sid2 sid _ hs, hget] at hnone
              exact absurd hnone (by simp)
          · rw [if_neg hlt, hget] at hnone
            exact absurd hnone (by simp)
        · by_cases hs : sid = sid2
          · subst hs
            exact ⟨code, rfl, Bool.not_eq_true _ ▸ hrc⟩
          · rw [if_neg hrc, regGet_regDelete_other reg sid2 sid hs, hget] at hnone
            exact absurd hnone (by simp)
    | initError sid2 =>
        rw [connStep_initError_eq] at hnone
        cases hg : regGet reg sid2 with
        | none =>
            rw [hg] at hnone
            simp [hget] at hnone
        | some ci2 =>
            rw [hg] at hnone
            by_cases hlt : ci2.retryCount < MAX_RETRIES <;> simp [hlt, hget] at hnone

/-- A session entry used to instantiate the amended C1 theorem. -/
def regC1w : Registry ClientInfo :=
  [("a", { client := true, number := some "4420", connected := false,
           lastConnected := some 17, retryCount := 7 })]

/-- C1 witness: a reconnectable close on a session with `retryCount = 7`
bumps it to 8 via the close handler. -/
theorem C1_retry_bound_witness :
    rcOf (connStep 408 regC1w (SessionEvent.closed "a" (some 515))).1 "a"
      = rcOf regC1w "a" + 1 :=
  (C1_retry_bound.2.2.1 408 regC1w "a" (some 515) (by decide) (by decide)).1

/-- C2: when a stop request arrives during iteration `j` — after message
index `j` has been sent, before the checkpoint of iteration `j + 1` — the
loop never attempts message index `j + 1`: every attempted send has index
at most `j`, and the loop reaches its finished state without further
sends. -/
theorem C2_stop_checkpoint (env : LoopEnv) (tasks : Registry TaskInfo)
    (sid target targetJid : String) (j : Nat) (hstop : env.stopEvt j = true)
    (n : Nat) :
    (∀ p ∈ (runLoop env (initLoopState env tasks sid target targetJid) n).attempted,
        (p : Nat × String).1 ≤ j) ∧
    (j + 1) ∉ (runLoop env (initLoopState env tasks sid target targetJid) n).attempted.map
        Prod.fst ∧
    (runLoop env (initLoopState env tasks sid target targetJid)
        (env.msgs.length + 1)).finished = true := by
  obtain ⟨hatt, -, -⟩ :=
    stopInv_run env j hstop _ (stopInv_init env j tasks sid target targetJid) n
  refine ⟨?_, ?_, ?_⟩
  · intro p hp
    exact (hatt p hp).2
  · intro hmem
    obtain ⟨p, hp, hfst⟩ := List.mem_map.mp hmem
    have hle := (hatt p hp).2
    omega
  · exact runLoop_terminates env env.msgs.length _ (by simp [initLoopState])

/-- A loop environment with three messages and a stop request arriving
during iteration 1. -/
def envC2 : LoopEnv :=
  { taskId := "t1", msgs := ["hello", "there", "again"], pfx := "",
    sendOk := fun _ => true, stopEvt := fun i => decide (i = 1), now := fun i => i }

/-- C2 witness: with a stop arriving right after the send of message
index 1, message index 2 is never attempted. -/
theorem C2_stop_checkpoint_witness :
    (2 : Nat) ∉ (runLoop envC2
      (initLoopState envC2 [] "s" "123" "123@s.whatsapp.net") 9).attempted.map Prod.fst :=
  (C2_stop_checkpoint envC2 [] "s" "123" "123@s.whatsapp.net" 1 (by decide) 9).2.1

/-- C3: across every step of the send loop, the stored `sentMessages` is
non-decreasing and bounded by the task's `totalMessages` (fixed at creation
as the length of the message list), and once the loop has finished no
further step mutates the task before its delayed eviction. -/
theorem C3_sent_monotone (env : LoopEnv) (tasks : Registry TaskInfo)
    (sid target targetJid : String) (n : Nat) :
    taskSent env (runLoop env (initLoopState env tasks sid target targetJid) n) ≤
      taskSent env (runLoop env (initLoopState env tasks sid target targetJid) (n + 1)) ∧
    (∃ t, regGet (runLoop env (initLoopState env tasks sid target targetJid) n).tasks
        env.taskId = some t ∧ t.totalMessages = env.msgs.length ∧
        t.sentMessages ≤ t.totalMessages) ∧
    ((runLoop env (initLoopState env tasks sid target targetJid) n).finished = true →
      runLoop env (initLoopState env tasks sid target targetJid) (n + 1) =
        runLoop env (initLoopState env tasks sid target targetJid) n) := by
  have hrun1 : runLoop env (initLoopState env tasks sid target targetJid) (n + 1) =
      loopStep env (runLoop env (initLoopState env tasks sid target targetJid) n) := by
    unfold runLoop
    rw [Function.iterate_succ_apply']
  refine ⟨?_, ?_, ?_⟩
  · rw [hrun1]
    exact taskSent_loopStep env _
  · obtain ⟨t, hget, htot, hsent, hidx⟩ :=
      loopInv_run env _ (loopInv_init env tasks sid target targetJid) n
    exact ⟨t, hget, htot, by omega⟩
  · intro hfin
    rw [hrun1, loopStep_of_finished env _ hfin]

/-- A loop environment whose first send fails and where no stop arrives. -/
def envC3 : LoopEnv :=
  { taskId := "t9", msgs := ["one", "two"], pfx := "yo",
    sendOk := fun i => decide (i ≠ 0), stopEvt := fun _ => false, now := fun i => i }

/-- C3 witness: one concrete loop step, with a failing send, does not
decrease the stored `sentMessages`. -/
theorem C3_sent_monotone_witness :
    taskSent envC3 (runLoop envC3 (initLoopState envC3 [] "s" "9" "9@s.whatsapp.net") 0) ≤
      taskSent envC3 (runLoop envC3 (initLoopState envC3 [] "s" "9" "9@s.whatsapp.net") 1) :=
  (C3_sent_monotone envC3 [] "s" "9" "9@s.whatsapp.net" 0).1

/-- C10: a successful `/stop-task` immediately writes both
`stopRequested = true` and `isSending = false` into the stored task, so a
status query right after reports the task as not sending and with its
`sentMessages` untouched; meanwhile a stop arriving during iteration `k`
does not prevent the in-flight send of index `k` from completing — the loop
has not yet observed the flag (it is not finished at step `k + 1`) even
though the stored task already reads `isSending = false` — and no send
beyond index `k` ever happens. -/
theorem C10_stop_immediate (tasks : Registry TaskInfo) (tid : String) (t : TaskInfo)
    (hget : regGet tasks tid = some t)
    (env : LoopEnv) (tasks0 : Registry TaskInfo) (sid target targetJid : String)
    (k : Nat) (hk : k < env.msgs.length)
    (hns : ∀ i, i < k → env.stopEvt i = false) (hstop : env.stopEvt k = true) :
    stopTask tasks tid =
      some (regSet tasks tid { t with stopRequested := true, isSending := false }) ∧
    (∃ st ∈ statusTasks (regSet tasks tid
        { t with stopRequested := true, isSending := false }),
      st.taskId = tid ∧ st.isSending = false ∧ st.stopRequested = true ∧
        st.sentMessages = t.sentMessages) ∧
    k ∈ (runLoop env (initLoopState env tasks0 sid target targetJid)
        (k + 1)).attempted.map Prod.fst ∧
    (runLoop env (initLoopState env tasks0 sid target targetJid) (k + 1)).finished
        = false ∧
    (∃ t2, regGet (runLoop env (initLoopState env tasks0 sid target targetJid)
        (k + 1)).tasks env.taskId = some t2 ∧
      t2.isSending = false ∧ t2.stopRequested = true) ∧
    (∀ n p, p ∈ (runLoop env (initLoopState env tasks0 sid target targetJid) n).attempted →
      (p : Nat × String).1 ≤ k) := by
  obtain ⟨hidx, hfin, hatt, t0, hget0, hstopd0⟩ :=
    runLoop_noStop env tasks0 sid target targetJid k (Nat.le_of_lt hk) hns
  have hlt : (runLoop env (initLoopState env tasks0 sid target targetJid) k).idx
      < env.msgs.length := by rw [hidx]; exact hk
  obtain ⟨hreg, hidx2, hfin2, hatt2⟩ := loopStep_attempt env _ t0 hfin hlt hget0 hstopd0
  have hrun1 : runLoop env (initLoopState env tasks0 sid target targetJid) (k + 1) =
      loopStep env (runLoop env (initLoopState env tasks0 sid target targetJid) k) := by
    unfold runLoop
    rw [Function.iterate_succ_apply']
  have hmem := regGet_mem _ tid _ (regGet_regSet_self tasks tid
    { t with stopRequested := true, isSending := false })
  refine ⟨?_, ?_, ?_, ?_, ?_, ?_⟩
  · unfold stopTask
    rw [hget]
  · exact ⟨_, List.mem_map_of_mem _ hmem, rfl, rfl, rfl, rfl⟩
  · rw [hrun1, hatt2, List.map_append, hatt, hidx]
    simp
  · rw [hrun1, hfin2]
  · refine ⟨stopUpd env (runLoop env (initLoopState env tasks0 sid target targetJid) k).idx
      (sendUpd env (runLoop env (initLoopState env tasks0 sid target targetJid) k).idx t0),
      by rw [hrun1, hreg], ?_, ?_⟩
    · rw [hidx]
      simp [stopUpd, hstop]
    · rw [hidx]
      simp [stopUpd, hstop]
  · intro n p hp
    obtain ⟨hatt3, -, -⟩ :=
      stopInv_run env k hstop _ (stopInv_init env k tasks0 sid target targetJid) n
    exact (hatt3 p hp).2

/-- A loop environment with a stop request arriving during iteration 1. -/
def envC10 : LoopEnv :=
  { taskId := "t7", msgs := ["a", "b", "c"], pfx := "",
    sendOk := fun _ => true, stopEvt := fun i => decide (i = 1), now := fun i => i }

/-- The stored task used to exercise the `/stop-task` handler. -/
def taskC10 : TaskInfo := mkTaskInfo "s" "77" "77@s.whatsapp.net" "" ["a", "b", "c"]

/-- C10 witness: the concrete loop has not observed the stop at step 2. -/
theorem C10_stop_immediate_witness :
    (runLoop envC10 (initLoopState envC10 [] "s" "77" "77@s.whatsapp.net") 2).finished
      = false :=
  (C10_stop_immediate [("t7", taskC10)] "t7" taskC10 (by decide) envC10 [] "s" "77"
    "77@s.whatsapp.net" 1 (by decide)
    (fun i hi => by
      have h0 : i = 0 := by omega
      subst h0
      rfl)
    (by decide)).2.2.2.1

/-- C4: a connected session receiving a close with a non-reconnectable
reason code (`DisconnectReason.loggedOut` or 401) is deleted from
`activeClients`, no reconnect is scheduled for it, and the `/status`
sessions listing no longer contains it. -/
theorem C4_terminal_close (loggedOut : Nat) (reg : Registry ClientInfo)
    (sid : String) (ci : ClientInfo) (code : Option Nat)
    (hpresent : regGet reg sid = some ci) (hconn : ci.connected = true)
    (hterm : code = some loggedOut ∨ code = some 401) :
    regGet (connStep loggedOut reg (SessionEvent.closed sid code)).1 sid = none ∧
    (connStep loggedOut reg (SessionEvent.closed sid code)).2 = false ∧
    ∀ st ∈ statusSessions (connStep loggedOut reg (SessionEvent.closed sid code)).1,
      st.sessionId ≠ sid := by
  have hrc : ¬ shouldReconnect loggedOut code = true := by
    rcases hterm with h | h <;> simp [shouldReconnect, h]
  rw [connStep_closed_eq, if_neg hrc]
  refine ⟨regGet_regDelete_self reg sid, rfl, ?_⟩
  intro st hst
  obtain ⟨p, hp, hdef⟩ := List.mem_map.mp hst
  have hne : p.1 ≠ sid := by
    have := (List.mem_filter.mp hp).2
    simpa using this
  rw [← hdef]
  exact hne

/-- A connected session entry. -/
def regC4w : Registry ClientInfo :=
  [("a", { client := true, number := some "31620", connected := true,
           lastConnected := some 3, retryCount := 0 })]

/-- C4 witness: a 401 close removes the concrete connected session. -/
theorem C4_terminal_close_witness :
    regGet (connStep 408 regC4w (SessionEvent.closed "a" (some 401))).1 "a" = none :=
  (C4_terminal_close 408 regC4w "a"
    { client := true, number := some "31620", connected := true,
      lastConnected := some 3, retryCount := 0 }
    (some 401) (by decide) rfl (Or.inr rfl)).1

/-- C5: the `/code` handler delegates to the socket's `requestPairingCode`
capability whenever that function exists, and returns the fixed sentinel
`"SCAN_QR_FROM_SERVER_LOGS"` when it is absent — it never fabricates a
pairing code of its own. -/
theorem C5_pairing_delegation (waClient : WaClient) (num : String) :
    (∀ f, waClient.requestPairingCode = some f → pairingCodeOf waClient num = f num) ∧
    (waClient.requestPairingCode = none →
      pairingCodeOf waClient num = "SCAN_QR_FROM_SERVER_LOGS") := by
  constructor
  · intro f hf
    simp [pairingCodeOf, hf]
  · intro hf
    simp [pairingCodeOf, hf]

/-- A socket without the pairing-code capability. -/
def wcNoPairing : WaClient := { requestPairingCode := none, registered := false }

/-- C5 witness: the capability-free socket yields the sentinel. -/
theorem C5_pairing_delegation_witness :
    pairingCodeOf wcNoPairing "9779829258991" = "SCAN_QR_FROM_SERVER_LOGS" :=
  (C5_pairing_delegation wcNoPairing "9779829258991").2 rfl

/-- C6: the persisted snapshot of the simulation state reloads to an
equal state (same `currentIndex`, target, delay, …); on restart a snapshot
marked running with a file present starts the loop, and the first tick
sends the message at the persisted `currentIndex` rather than index 0. -/
theorem C6_snapshot_roundtrip (sim : SimState) (lines : List String) (now : String)
    (hrun : sim.running = true) (hfp : sim.filePath.isSome = true)
    (hidx : sim.currentIndex < lines.length) :
    loadSim (encodeSim sim) = sim ∧
    bootStartsLoop sim = true ∧
    ((simTick sim lines now).2.map Prod.fst = some sim.currentIndex) := by
  refine ⟨loadSim_encodeSim sim, ?_, ?_⟩
  · simp [bootStartsLoop, hrun, hfp]
  · have hnz : ¬ lines.length = 0 := by omega
    have hwrap : ¬ lines.length ≤ sim.currentIndex := Nat.not_le.mpr hidx
    unfold simTick
    rw [if_neg (by simp [hrun]), if_neg hnz, if_neg hwrap]
    rfl

/-- A persisted simulation snapshot three messages into a five-line file. -/
def simC6 : SimState :=
  { running := true, targetType := "number", targetValue := "123", delay := 5,
    pfx := "", sessionId := "ab12cd34", uptime := 40, filePath := some "uploads/f",
    totalLines := 5, currentIndex := 3, linesPreview := ["m0"],
    lastSentAt := none, number := some "977" }

/-- C6 witness: after reload, the first tick resumes at index 3, not 0. -/
theorem C6_snapshot_roundtrip_witness :
    (simTick simC6 ["m0", "m1", "m2", "m3", "m4"] "T").2.map Prod.fst = some 3 :=
  (C6_snapshot_roundtrip simC6 ["m0", "m1", "m2", "m3", "m4"] "T" rfl rfl
    (by decide)).2.2

/-- C7: starting from an empty log sink, any sequence of `appendLog`
insertions leaves at most 2000 entries, and the retained entries are
exactly the most recent ones in insertion order (the oldest are dropped
from the front). -/
theorem C7_log_cap {α : Type} (es : List α) :
    (es.foldl appendLog ([] : List α)).length ≤ 2000 ∧
    es.foldl appendLog ([] : List α) = es.drop (es.length - 2000) := by
  have hnil : ([] : List α) = logCap [] := by simp [logCap]
  have hfold : es.foldl appendLog ([] : List α) = logCap es := by
    have h2 := foldl_appendLog es ([] : List α)
    rw [← hnil, List.nil_append] at h2
    exact h2
  constructor
  · rw [hfold]
    unfold logCap
    rw [List.length_drop]
    omega
  · rw [hfold]
    rfl

/-- C8: one tick of the keep-alive interval leaves the session registry —
and hence every session's `connected`, `lastConnected` and `retryCount` —
unchanged, pings exactly the sessions whose `connected` flag and client
handle are set, and logs exactly the pings that fail. -/
theorem C8_keepalive_frame (reg : Registry ClientInfo) (pingFails : String → Bool) :
    (keepAliveTick reg pingFails).1 = reg ∧
    (∀ sid, sid ∈ (keepAliveTick reg pingFails).2.1 ↔
      ∃ ci, (sid, ci) ∈ reg ∧ ci.connected = true ∧ ci.client = true) ∧
    (∀ sid, sid ∈ (keepAliveTick reg pingFails).2.2 ↔
      ((∃ ci, (sid, ci) ∈ reg ∧ ci.connected = true ∧ ci.client = true) ∧
        pingFails sid = true)) := by
  refine ⟨rfl, ?_, ?_⟩
  · intro sid
    simp only [keepAliveTick, List.mem_map, List.mem_filter, keepAlivePing]
    constructor
    · rintro ⟨⟨s, ci⟩, ⟨hmem, hflags⟩, rfl⟩
      rw [Bool.and_eq_true] at hflags
      exact ⟨ci, hmem, hflags.1, hflags.2⟩
    · rintro ⟨ci, hmem, h1, h2⟩
      exact ⟨(sid, ci), ⟨hmem, by simp [h1, h2]⟩, rfl⟩
  · intro sid
    simp only [keepAliveTick, List.mem_map, List.mem_filter, keepAlivePing]
    constructor
    · rintro ⟨⟨s, ci⟩, ⟨⟨hmem, hflags⟩, hfail⟩, rfl⟩
      rw [Bool.and_eq_true] at hflags
      exact ⟨⟨ci, hmem, hflags.1, hflags.2⟩, hfail⟩
    · rintro ⟨⟨ci, hmem, h1, h2⟩, hfail⟩
      exact ⟨(sid, ci), ⟨⟨hmem, by simp [h1, h2]⟩, hfail⟩, rfl⟩

/-- C9: `/send-message` selects the first `activeClients` entry without
reading its `connected` flag — so a task can start against a disconnected
session — and reports "no active session" exactly when the registry is
empty or the selected entry carries no client handle; `/groups`, by
contrast, only ever selects a connected entry with a handle. -/
theorem C9_first_session_selection :
    (∀ (k : String) (v : ClientInfo) (rest : Registry ClientInfo),
      k ≠ "" → v.client = true →
      selectTaskSession ((k, v) :: rest) = some (k, v)) ∧
    selectTaskSession ([] : Registry ClientInfo) = none ∧
    (∀ (k : String) (v : ClientInfo) (rest : Registry ClientInfo),
      v.client = false → selectTaskSession ((k, v) :: rest) = none) ∧
    (∀ (reg : Registry ClientInfo) (ci : ClientInfo),
      selectGroupsSession reg = some ci → ci.connected = true ∧ ci.client = true) := by
  refine ⟨?_, rfl, ?_, ?_⟩
  · intro k v rest hk hv
    simp [selectTaskSession, hk, hv]
  · intro k v rest hv
    simp [selectTaskSession, hv]
  · intro reg ci hsel
    induction reg with
    | nil => simp [selectGroupsSession] at hsel
    | cons p rest ih =>
        by_cases hp : (p.2.connected && p.2.client) = true
        · rw [show selectGroupsSession (p :: rest) =
              (if (p.2.connected && p.2.client) = true then some p.2
               else selectGroupsSession rest) from rfl, if_pos hp] at hsel
          rw [Bool.and_eq_true] at hp
          obtain rfl : p.2 = ci := Option.some.inj hsel
          exact hp
        · rw [show selectGroupsSession (p :: rest) =
              (if (p.2.connected && p.2.client) = true then some p.2
               else selectGroupsSession rest) from rfl, if_neg hp] at hsel
          exact ih hsel

/-- A disconnected session entry that still carries a client handle. -/
def ciDisconnected : ClientInfo :=
  { client := true, number := some "5511", connected := false,
    lastConnected := some 12, retryCount := 2 }

/-- C9 witness: `/send-message` would pick the disconnected head entry. -/
theorem C9_first_session_selection_witness :
    selectTaskSession [("s1", ciDisconnected)] = some ("s1", ciDisconnected) :=
  C9_first_session_selection.1 "s1" ciDisconnected [] (by decide) rfl

end Servus
